import Mathlib

/-!
Shallow embedding of the calendar CLI (src/src/main.rs): the Schedule and
Calendar data model, the overlap checker, the add/delete commands, the list
formatting, and the JSON repository layer.
-/

set_option autoImplicit false

namespace CalendarApp

/--
Model of chrono NaiveDateTime: a naive local timestamp given by its calendar
components. chrono orders these chronologically; for calendar-valid values
that order coincides with the lexicographic order on
(year, month, day, hour, minute, second), which we realise through the
injective-on-valid-values map toSec below.
-/
structure NaiveDateTime where
  year : Int
  month : Nat
  day : Nat
  hour : Nat
  minute : Nat
  second : Nat
deriving Repr, DecidableEq

/--
Order embedding of naive timestamps into the integers: a mixed-radix
reading of the components (months below 13, days below 32, hours below 24,
minutes and seconds below 60), so the integer order agrees with
chronological order on calendar-valid timestamps.
-/
def NaiveDateTime.toSec (d : NaiveDateTime) : Int :=
  ((((d.year * 13 + (d.month : Int)) * 32 + (d.day : Int)) * 24 +
      (d.hour : Int)) * 60 + (d.minute : Int)) * 60 + (d.second : Int)

instance : LT NaiveDateTime := ⟨fun a b => a.toSec < b.toSec⟩

instance : LE NaiveDateTime := ⟨fun a b => a.toSec ≤ b.toSec⟩

instance (a b : NaiveDateTime) : Decidable (a < b) :=
  inferInstanceAs (Decidable (a.toSec < b.toSec))

instance (a b : NaiveDateTime) : Decidable (a ≤ b) :=
  inferInstanceAs (Decidable (a.toSec ≤ b.toSec))

/-- One calendar entry: struct Schedule of main.rs. -/
structure Schedule where
  id : Nat
  subject : String
  start : NaiveDateTime
  «end» : NaiveDateTime
deriving Repr, DecidableEq

/-- Schedule.intersects of main.rs: self.start < other.end && other.start < self.end. -/
def Schedule.intersects (self other : Schedule) : Bool :=
  decide (self.start < other.«end») && decide (other.start < self.«end»)

/-- The aggregate: struct Calendar of main.rs, an ordered sequence of schedules. -/
structure Calendar where
  schedules : List Schedule
deriving Repr, DecidableEq

/--
The conflict scan inside add_schedule: walk the existing schedules in order
and return the first one that intersects the candidate, if any (the Rust
loop prints that schedule and returns false at that point).
-/
def findConflict : List Schedule → Schedule → Option Schedule
  | [], _ => none
  | s :: rest, cand => if s.intersects cand then some s else findConflict rest cand

/--
Result of add_schedule: the returned bool, the calendar after the call
(the Rust function mutates it in place), and the conflicting existing
schedule reported by the diagnostic println when the add is rejected.
-/
structure AddResult where
  ok : Bool
  calendar : Calendar
  conflict : Option Schedule
deriving Repr, DecidableEq

/--
add_schedule of main.rs: id is the current length of the sequence; scan the
existing schedules in order, rejecting on the first intersecting one
(calendar untouched, conflicting schedule reported); otherwise push the
candidate at the end and return true.
-/
def addSchedule (cal : Calendar) (subject : String)
    (start fin : NaiveDateTime) : AddResult :=
  let i := cal.schedules.length
  let newSchedule : Schedule := ⟨i, subject, start, fin⟩
  match findConflict cal.schedules newSchedule with
  | some s => ⟨false, cal, some s⟩
  | none => ⟨true, ⟨cal.schedules ++ [newSchedule]⟩, none⟩

/--
The scan inside delete_schedule: remove the first element whose id matches,
returning none when no element matches (the Rust loop calls Vec remove at
the first matching index and returns true, else falls through to false).
-/
def deleteList : List Schedule → Nat → Option (List Schedule)
  | [], _ => none
  | s :: rest, i =>
    if s.id = i then some rest
    else (deleteList rest i).map (fun r => s :: r)

/-- delete_schedule of main.rs: returned bool and the calendar after the call. -/
def deleteSchedule (cal : Calendar) (i : Nat) : Bool × Calendar :=
  match deleteList cal.schedules i with
  | some l => (true, ⟨l⟩)
  | none => (false, cal)

/-- Zero-pad a number to two digits, as the %m %d %H %M format directives do. -/
def pad2 (n : Nat) : String :=
  if n < 10 then "0" ++ toString n else toString n

/-- Zero-pad a year to four digits with a leading sign for negative years (%Y). -/
def pad4 (y : Int) : String :=
  let n := y.natAbs
  let digits :=
    if n < 10 then "000" ++ toString n
    else if n < 100 then "00" ++ toString n
    else if n < 1000 then "0" ++ toString n
    else toString n
  if y < 0 then "-" ++ digits else digits

/-- The start/end display format of show_schedule: %Y-%m-%d %H:%M (seconds dropped). -/
def NaiveDateTime.format (d : NaiveDateTime) : String :=
  pad4 d.year ++ "-" ++ pad2 d.month ++ "-" ++ pad2 d.day ++ " " ++
    pad2 d.hour ++ ":" ++ pad2 d.minute

/-- One display row of show_schedule: id, formatted start, formatted end, subject, tab-separated. -/
def scheduleRow (s : Schedule) : String :=
  toString s.id ++ "\t" ++ s.start.format ++ "\t" ++ s.«end».format ++ "\t" ++ s.subject

/-- The printing loop of show_schedule: one row per schedule, in stored order. -/
def showLoop : List Schedule → List String
  | [] => []
  | s :: rest => scheduleRow s :: showLoop rest

/--
show_schedule of main.rs: the header line followed by one row per schedule.
The Rust function takes the calendar by shared reference and only prints, so
it is embedded as a pure function from the calendar to the printed lines;
it produces no new calendar and no file write.
-/
def showSchedule (cal : Calendar) : List String :=
  "ID\tSTART\tEND\tSUBJECT" :: showLoop cal.schedules

/--
Structured data, the target of serde serialization. chrono serializes a
NaiveDateTime as an ISO-8601 text token; that token is modelled here by the
numeric components it spells out, which is all the claims depend on (the
encoding is invertible exactly as the text form is).
-/
inductive Json where
  | num (n : Int)
  | str (s : String)
  | arr (elems : List Json)
  | obj (fields : List (String × Json))
deriving Repr

/-- Serde serialization of a timestamp (the components of its ISO text form). -/
def NaiveDateTime.toJson (d : NaiveDateTime) : Json :=
  Json.arr [Json.num d.year, Json.num (d.month : Int), Json.num (d.day : Int),
    Json.num (d.hour : Int), Json.num (d.minute : Int), Json.num (d.second : Int)]

/-- Serde deserialization of a timestamp; rejects anything but the serialized shape. -/
def NaiveDateTime.fromJson : Json → Option NaiveDateTime
  | Json.arr [Json.num y, Json.num mo, Json.num da, Json.num h, Json.num mi, Json.num s] =>
    if 0 ≤ mo ∧ 0 ≤ da ∧ 0 ≤ h ∧ 0 ≤ mi ∧ 0 ≤ s then
      some ⟨y, mo.toNat, da.toNat, h.toNat, mi.toNat, s.toNat⟩
    else none
  | _ => none

/-- Derived serde Serialize for Schedule: a map with the four named fields. -/
def Schedule.toJson (s : Schedule) : Json :=
  Json.obj [("id", Json.num (s.id : Int)), ("subject", Json.str s.subject),
    ("start", s.start.toJson), ("end", s.«end».toJson)]

/-- Derived serde Deserialize for Schedule: each field looked up by name, id a u64. -/
def Schedule.fromJson : Json → Option Schedule
  | Json.obj fields =>
    match List.lookup "id" fields, List.lookup "subject" fields,
        List.lookup "start" fields, List.lookup "end" fields with
    | some (Json.num i), some (Json.str subj), some js, some je =>
      if 0 ≤ i then
        match NaiveDateTime.fromJson js, NaiveDateTime.fromJson je with
        | some st, some en => some ⟨i.toNat, subj, st, en⟩
        | _, _ => none
      else none
    | _, _, _, _ => none
  | _ => none

/-- Derived serde Serialize for Calendar: a map with the schedules array. -/
def Calendar.toJson (cal : Calendar) : Json :=
  Json.obj [("schedules", Json.arr (cal.schedules.map Schedule.toJson))]

/-- Serde seq deserialization: decode every element or fail as a whole. -/
def decodeSchedules : List Json → Option (List Schedule)
  | [] => some []
  | j :: rest =>
    match Schedule.fromJson j, decodeSchedules rest with
    | some s, some l => some (s :: l)
    | _, _ => none

/-- Derived serde Deserialize for Calendar. -/
def Calendar.fromJson : Json → Option Calendar
  | Json.obj fields =>
    match List.lookup "schedules" fields with
    | some (Json.arr xs) => (decodeSchedules xs).map (fun l => Calendar.mk l)
    | _ => none
  | _ => none

/-- The two variants of enum MyError in main.rs. -/
inductive MyError where
  | io
  | serde
deriving Repr, DecidableEq

/--
read_calendar of main.rs. The persistence target is modelled as
Option Json: none when the file is absent or cannot be opened (File open
fails, propagated as MyError Io by the question-mark operator), some j when
it holds contents j. The function then runs serde deserialization and
UNWRAPS the result: a malformed file panics and aborts the process, which
the outer Option models as none (no value ever returned to the caller).
-/
def readCalendar (file : Option Json) : Option (Except MyError Calendar) :=
  match file with
  | none => some (Except.error MyError.io)
  | some j =>
    match Calendar.fromJson j with
    | some c => some (Except.ok c)
    | none => none

/-- save_calendar of main.rs: serializes the full calendar; the written contents. -/
def saveCalendar (cal : Calendar) : Json :=
  Calendar.toJson cal

/-- Sample schedule, 2024-01-01 18:15 to 19:15. -/
def sA : Schedule := ⟨0, "a", ⟨2024, 1, 1, 18, 15, 0⟩, ⟨2024, 1, 1, 19, 15, 0⟩⟩

/-- Sample schedule, 2024-01-01 18:30 to 20:00 (overlaps sA). -/
def sB : Schedule := ⟨1, "b", ⟨2024, 1, 1, 18, 30, 0⟩, ⟨2024, 1, 1, 20, 0, 0⟩⟩

/-- Sample schedule, 2024-01-01 20:15 to 20:45 (disjoint from sA). -/
def sC : Schedule := ⟨2, "c", ⟨2024, 1, 1, 20, 15, 0⟩, ⟨2024, 1, 1, 20, 45, 0⟩⟩

/-- Sample schedule on the next day whose id 0 duplicates the id of sA. -/
def sD : Schedule := ⟨0, "d", ⟨2024, 1, 2, 9, 0, 0⟩, ⟨2024, 1, 2, 10, 0, 0⟩⟩

theorem NaiveDateTime.lt_def (a b : NaiveDateTime) : (a < b) = (a.toSec < b.toSec) :=
  rfl

theorem NaiveDateTime.le_def (a b : NaiveDateTime) : (a ≤ b) = (a.toSec ≤ b.toSec) :=
  rfl

/--
C1: intersects a b is true exactly when a.start < b.end and b.start < a.end,
for arbitrary naive timestamps (different calendar dates included); and for
nonempty intervals this condition holds exactly when the half-open intervals
share an instant.
-/
theorem intersects_spec (a b : Schedule) :
    (a.intersects b = true ↔ (a.start < b.«end» ∧ b.start < a.«end»)) ∧
    (a.start < a.«end» → b.start < b.«end» →
      (a.intersects b = true ↔
        ∃ t : NaiveDateTime, (a.start ≤ t ∧ t < a.«end») ∧ (b.start ≤ t ∧ t < b.«end»))) := by
  refine ⟨by simp [Schedule.intersects], ?_⟩
  intro ha hb
  simp only [Schedule.intersects, Bool.and_eq_true, decide_eq_true_eq,
    NaiveDateTime.lt_def, NaiveDateTime.le_def] at *
  constructor
  · rintro ⟨h1, h2⟩
    by_cases hc : a.start.toSec ≤ b.start.toSec
    · exact ⟨b.start, ⟨hc, h2⟩, le_refl _, hb⟩
    · exact ⟨a.start, ⟨le_refl _, ha⟩, by omega, h1⟩
  · rintro ⟨t, ⟨h1, h2⟩, h3, h4⟩
    exact ⟨by omega, by omega⟩

/-- Witness for C1 at the concrete overlapping pair sA, sB. -/
theorem intersects_spec_witness :
    sA.start < sA.«end» ∧ sB.start < sB.«end» ∧
    (sA.intersects sB = true ↔
      ∃ t : NaiveDateTime, (sA.start ≤ t ∧ t < sA.«end») ∧ (sB.start ≤ t ∧ t < sB.«end»)) :=
  ⟨by decide, by decide, (intersects_spec sA sB).2 (by decide) (by decide)⟩

/-- C7: intersects is symmetric on proper intervals (start before end on both sides). -/
theorem intersects_symm (a b : Schedule)
    (h1 : a.start < a.«end») (h2 : b.start < b.«end») :
    a.intersects b = b.intersects a := by
  simp only [Schedule.intersects]
  exact Bool.and_comm _ _

/-- Witness for C7 at the concrete pair sA, sB. -/
theorem intersects_symm_witness :
    sA.start < sA.«end» ∧ sB.start < sB.«end» ∧ sA.intersects sB = sB.intersects sA :=
  ⟨by decide, by decide, intersects_symm sA sB (by decide) (by decide)⟩

/-- C8: an interval that ends at or before the other starts does not intersect it. -/
theorem intersects_touching_disjoint (a b : Schedule) (h : a.«end» ≤ b.start) :
    a.intersects b = false := by
  have hlt : decide (b.start < a.«end») = false := by
    apply decide_eq_false
    rw [NaiveDateTime.le_def] at h
    rw [NaiveDateTime.lt_def]
    omega
  simp only [Schedule.intersects, hlt, Bool.and_false]

/-- Witness for C8 at the concrete touching-then-disjoint pair sA, sC. -/
theorem intersects_touching_disjoint_witness :
    sA.«end» ≤ sC.start ∧ sA.intersects sC = false :=
  ⟨by decide, intersects_touching_disjoint sA sC (by decide)⟩

theorem findConflict_eq_some (l : List Schedule) (c : Schedule)
    (h : ∃ s ∈ l, s.intersects c = true) :
    ∃ s, findConflict l c = some s ∧ s ∈ l ∧ s.intersects c = true := by
  induction l with
  | nil => simp at h
  | cons x xs ih =>
    by_cases hx : x.intersects c = true
    · exact ⟨x, by simp [findConflict, hx], by simp, hx⟩
    · obtain ⟨s, hs, hsc⟩ := h
      rcases List.mem_cons.mp hs with rfl | hmem
      · exact absurd hsc hx
      · obtain ⟨u, h1, h2, h3⟩ := ih ⟨s, hmem, hsc⟩
        exact ⟨u, by simp [findConflict, hx, h1], List.mem_cons_of_mem _ h2, h3⟩

theorem findConflict_eq_none (l : List Schedule) (c : Schedule)
    (h : ∀ s ∈ l, s.intersects c = false) : findConflict l c = none := by
  induction l with
  | nil => rfl
  | cons x xs ih =>
    have hx := h x (by simp)
    have hrest := ih (fun s hs => h s (List.mem_cons_of_mem _ hs))
    simp [findConflict, hx, hrest]

/--
C2: when some existing schedule intersects the candidate (whose id is the
current sequence length), add returns false, leaves the calendar unchanged,
and reports a conflicting existing schedule to the caller.
-/
theorem addSchedule_conflict_spec (cal : Calendar) (subject : String)
    (start fin : NaiveDateTime)
    (h : ∃ s ∈ cal.schedules,
      s.intersects ⟨cal.schedules.length, subject, start, fin⟩ = true) :
    (addSchedule cal subject start fin).ok = false ∧
    (addSchedule cal subject start fin).calendar = cal ∧
    ∃ s, (addSchedule cal subject start fin).conflict = some s ∧
      s ∈ cal.schedules ∧
      s.intersects ⟨cal.schedules.length, subject, start, fin⟩ = true := by
  obtain ⟨s, hfc, hmem, hint⟩ := findConflict_eq_some _ _ h
  have heq : addSchedule cal subject start fin = ⟨false, cal, some s⟩ := by
    unfold addSchedule
    simp [hfc]
  rw [heq]
  exact ⟨rfl, rfl, s, rfl, hmem, hint⟩

/-- Witness for C2: adding an overlapping schedule to the calendar holding sA. -/
theorem addSchedule_conflict_spec_witness :
    (addSchedule ⟨[sA]⟩ "b" ⟨2024, 1, 1, 18, 30, 0⟩ ⟨2024, 1, 1, 20, 0, 0⟩).ok = false ∧
    (addSchedule ⟨[sA]⟩ "b" ⟨2024, 1, 1, 18, 30, 0⟩ ⟨2024, 1, 1, 20, 0, 0⟩).calendar =
      ⟨[sA]⟩ ∧
    ∃ s, (addSchedule ⟨[sA]⟩ "b" ⟨2024, 1, 1, 18, 30, 0⟩
        ⟨2024, 1, 1, 20, 0, 0⟩).conflict = some s ∧
      s ∈ (Calendar.mk [sA]).schedules ∧
      s.intersects ⟨(Calendar.mk [sA]).schedules.length, "b", ⟨2024, 1, 1, 18, 30, 0⟩,
        ⟨2024, 1, 1, 20, 0, 0⟩⟩ = true :=
  addSchedule_conflict_spec ⟨[sA]⟩ "b" ⟨2024, 1, 1, 18, 30, 0⟩ ⟨2024, 1, 1, 20, 0, 0⟩
    (by decide)

/--
C3: when no existing schedule intersects the candidate, add appends the
candidate at the end with id equal to the length before insertion and
returns true; on an empty calendar it always succeeds and assigns id 0.
-/
theorem addSchedule_success_spec (cal : Calendar) (subject : String)
    (start fin : NaiveDateTime)
    (h : ∀ s ∈ cal.schedules,
      s.intersects ⟨cal.schedules.length, subject, start, fin⟩ = false) :
    (addSchedule cal subject start fin).ok = true ∧
    (addSchedule cal subject start fin).calendar.schedules =
      cal.schedules ++ [⟨cal.schedules.length, subject, start, fin⟩] ∧
    (addSchedule ⟨[]⟩ subject start fin).ok = true ∧
    (addSchedule ⟨[]⟩ subject start fin).calendar.schedules =
      [⟨0, subject, start, fin⟩] := by
  have hfc := findConflict_eq_none _ _ h
  have heq : addSchedule cal subject start fin =
      ⟨true, ⟨cal.schedules ++ [⟨cal.schedules.length, subject, start, fin⟩]⟩, none⟩ := by
    unfold addSchedule
    simp [hfc]
  rw [heq]
  exact ⟨rfl, rfl, rfl, rfl⟩

/-- Witness for C3: adding a disjoint schedule to the calendar holding sA. -/
theorem addSchedule_success_spec_witness :
    (addSchedule ⟨[sA]⟩ "c" ⟨2024, 1, 1, 20, 15, 0⟩ ⟨2024, 1, 1, 20, 45, 0⟩).ok = true ∧
    (addSchedule ⟨[sA]⟩ "c" ⟨2024, 1, 1, 20, 15, 0⟩
        ⟨2024, 1, 1, 20, 45, 0⟩).calendar.schedules =
      (Calendar.mk [sA]).schedules ++
        [⟨(Calendar.mk [sA]).schedules.length, "c", ⟨2024, 1, 1, 20, 15, 0⟩,
          ⟨2024, 1, 1, 20, 45, 0⟩⟩] ∧
    (addSchedule ⟨[]⟩ "c" ⟨2024, 1, 1, 20, 15, 0⟩ ⟨2024, 1, 1, 20, 45, 0⟩).ok = true ∧
    (addSchedule ⟨[]⟩ "c" ⟨2024, 1, 1, 20, 15, 0⟩
        ⟨2024, 1, 1, 20, 45, 0⟩).calendar.schedules =
      [⟨0, "c", ⟨2024, 1, 1, 20, 15, 0⟩, ⟨2024, 1, 1, 20, 45, 0⟩⟩] :=
  addSchedule_success_spec ⟨[sA]⟩ "c" ⟨2024, 1, 1, 20, 15, 0⟩ ⟨2024, 1, 1, 20, 45, 0⟩
    (by decide)

theorem deleteList_eq_none (l : List Schedule) (i : Nat)
    (h : ∀ s ∈ l, s.id ≠ i) : deleteList l i = none := by
  induction l with
  | nil => rfl
  | cons x xs ih =>
    have hx := h x (by simp)
    have hrest := ih (fun s hs => h s (List.mem_cons_of_mem _ hs))
    simp [deleteList, hx, hrest]

theorem deleteList_eq_some (l : List Schedule) (i : Nat)
    (h : ∃ s ∈ l, s.id = i) :
    ∃ l₁ s l₂, l = l₁ ++ s :: l₂ ∧ s.id = i ∧ (∀ x ∈ l₁, x.id ≠ i) ∧
      deleteList l i = some (l₁ ++ l₂) := by
  induction l with
  | nil => simp at h
  | cons x xs ih =>
    by_cases hx : x.id = i
    · exact ⟨[], x, xs, by simp, hx, by simp, by simp [deleteList, hx]⟩
    · have hex : ∃ s ∈ xs, s.id = i := by
        obtain ⟨s, hs, hsi⟩ := h
        rcases List.mem_cons.mp hs with rfl | hmem
        · exact absurd hsi hx
        · exact ⟨s, hmem, hsi⟩
      obtain ⟨l₁, s, l₂, heq, hsi, hall, hdel⟩ := ih hex
      refine ⟨x :: l₁, s, l₂, by simp [heq], hsi, ?_, by simp [deleteList, hx, hdel]⟩
      intro y hy
      rcases List.mem_cons.mp hy with rfl | hmem
      · exact hx
      · exact hall y hmem

/--
C4: delete removes the first schedule whose id matches, keeping the
surrounding schedules in order and shrinking the length by one, and returns
true; when no id matches it returns false and leaves the calendar unchanged.
-/
theorem deleteSchedule_spec (cal : Calendar) (i : Nat) :
    ((∃ s ∈ cal.schedules, s.id = i) →
      (deleteSchedule cal i).1 = true ∧
      ∃ l₁ s l₂, cal.schedules = l₁ ++ s :: l₂ ∧ s.id = i ∧ (∀ x ∈ l₁, x.id ≠ i) ∧
        (deleteSchedule cal i).2.schedules = l₁ ++ l₂ ∧
        (deleteSchedule cal i).2.schedules.length + 1 = cal.schedules.length) ∧
    ((∀ s ∈ cal.schedules, s.id ≠ i) →
      (deleteSchedule cal i).1 = false ∧ (deleteSchedule cal i).2 = cal) := by
  constructor
  · intro h
    obtain ⟨l₁, s, l₂, heq, hsi, hall, hdel⟩ := deleteList_eq_some _ _ h
    have hres : deleteSchedule cal i = (true, ⟨l₁ ++ l₂⟩) := by
      unfold deleteSchedule
      simp [hdel]
    rw [hres]
    refine ⟨rfl, l₁, s, l₂, heq, hsi, hall, rfl, ?_⟩
    simp [heq]
    omega
  · intro h
    have hdel := deleteList_eq_none _ _ h
    unfold deleteSchedule
    simp [hdel]

/--
Witness for C4: deleting id 0 from the calendar holding sA then sC, and
deleting an absent id 7 from the calendar holding sA.
-/
theorem deleteSchedule_spec_witness :
    ((deleteSchedule ⟨[sA, sC]⟩ 0).1 = true ∧
      ∃ l₁ s l₂, (Calendar.mk [sA, sC]).schedules = l₁ ++ s :: l₂ ∧ s.id = 0 ∧
        (∀ x ∈ l₁, x.id ≠ 0) ∧
        (deleteSchedule ⟨[sA, sC]⟩ 0).2.schedules = l₁ ++ l₂ ∧
        (deleteSchedule ⟨[sA, sC]⟩ 0).2.schedules.length + 1 =
          (Calendar.mk [sA, sC]).schedules.length) ∧
    ((deleteSchedule ⟨[sA]⟩ 7).1 = false ∧ (deleteSchedule ⟨[sA]⟩ 7).2 = ⟨[sA]⟩) :=
  ⟨(deleteSchedule_spec ⟨[sA, sC]⟩ 0).1 (by decide),
    (deleteSchedule_spec ⟨[sA]⟩ 7).2 (by decide)⟩

/--
C10: in a calendar holding two or more schedules with the same id (possible
because ids are assigned from the sequence length), delete with that id
returns true, removes only the first occurrence, leaves every later
duplicate in place, and removes exactly one schedule.
-/
theorem deleteSchedule_duplicate_spec (cal : Calendar) (i : Nat)
    (h : 2 ≤ cal.schedules.countP (fun s => s.id == i)) :
    (deleteSchedule cal i).1 = true ∧
    ∃ l₁ s l₂, cal.schedules = l₁ ++ s :: l₂ ∧ s.id = i ∧ (∀ x ∈ l₁, x.id ≠ i) ∧
      (deleteSchedule cal i).2.schedules = l₁ ++ l₂ ∧
      1 ≤ l₂.countP (fun x => x.id == i) ∧
      (deleteSchedule cal i).2.schedules.countP (fun x => x.id == i) + 1 =
        cal.schedules.countP (fun x => x.id == i) ∧
      cal.schedules.length = (deleteSchedule cal i).2.schedules.length + 1 := by
  have hpos : 0 < cal.schedules.countP (fun s => s.id == i) := by omega
  have hex : ∃ s ∈ cal.schedules, s.id = i := by
    obtain ⟨s, hs, hp⟩ := List.countP_pos_iff.mp hpos
    exact ⟨s, hs, by simpa using hp⟩
  obtain ⟨l₁, s, l₂, heq, hsi, hall, hdel⟩ := deleteList_eq_some _ _ hex
  have hres : deleteSchedule cal i = (true, ⟨l₁ ++ l₂⟩) := by
    unfold deleteSchedule
    simp [hdel]
  have hc1 : l₁.countP (fun x => x.id == i) = 0 :=
    List.countP_eq_zero.mpr (by intro a ha; simpa using hall a ha)
  have hcount : cal.schedules.countP (fun x => x.id == i) =
      l₁.countP (fun x => x.id == i) + (l₂.countP (fun x => x.id == i) + 1) := by
    rw [heq, List.countP_append, List.countP_cons]
    simp [hsi]
  rw [hres]
  refine ⟨rfl, l₁, s, l₂, heq, hsi, hall, rfl, ?_, ?_, ?_⟩
  · rw [hcount, hc1] at h
    omega
  · rw [List.countP_append, hcount, hc1]
    omega
  · simp [heq]
    omega

/--
Witness for C10: the calendar holding sA and sD, both with id 0; delete 0
removes sA and keeps sD.
-/
theorem deleteSchedule_duplicate_spec_witness :
    (deleteSchedule ⟨[sA, sD]⟩ 0).1 = true ∧
    ∃ l₁ s l₂, (Calendar.mk [sA, sD]).schedules = l₁ ++ s :: l₂ ∧ s.id = 0 ∧
      (∀ x ∈ l₁, x.id ≠ 0) ∧
      (deleteSchedule ⟨[sA, sD]⟩ 0).2.schedules = l₁ ++ l₂ ∧
      1 ≤ l₂.countP (fun x => x.id == 0) ∧
      (deleteSchedule ⟨[sA, sD]⟩ 0).2.schedules.countP (fun x => x.id == 0) + 1 =
        (Calendar.mk [sA, sD]).schedules.countP (fun x => x.id == 0) ∧
      (Calendar.mk [sA, sD]).schedules.length =
        (deleteSchedule ⟨[sA, sD]⟩ 0).2.schedules.length + 1 :=
  deleteSchedule_duplicate_spec ⟨[sA, sD]⟩ 0 (by decide)

/--
C5, behaviour at the failing input: a missing persistence target yields the
IO error kind, as the claim says; but a present target with malformed
contents makes read_calendar unwrap the failed deserialization and abort
the process (modelled by none), instead of returning the Serde error kind.
-/
theorem readCalendar_malformed_aborts :
    readCalendar none = some (Except.error MyError.io) ∧
    readCalendar (some (Json.str "x")) = none ∧
    (readCalendar (some (Json.str "x")) ≠ some (Except.error MyError.serde)) :=
  ⟨rfl, rfl, by simp [readCalendar, Calendar.fromJson]⟩

theorem fromJson_toJson_dt (d : NaiveDateTime) :
    NaiveDateTime.fromJson d.toJson = some d := by
  cases d
  simp [NaiveDateTime.toJson, NaiveDateTime.fromJson, Int.natCast_nonneg]

theorem fromJson_toJson_sched (s : Schedule) :
    Schedule.fromJson s.toJson = some s := by
  cases s
  simp [Schedule.toJson, Schedule.fromJson, List.lookup, fromJson_toJson_dt,
    Int.natCast_nonneg]

theorem decodeSchedules_map_toJson (l : List Schedule) :
    decodeSchedules (l.map Schedule.toJson) = some l := by
  induction l with
  | nil => rfl
  | cons x xs ih => simp [decodeSchedules, fromJson_toJson_sched, ih]

/--
C6: serializing any in-memory calendar with save_calendar and then
deserializing the written contents with read_calendar reproduces the same
calendar value.
-/
theorem save_then_load_roundTrip (cal : Calendar) :
    readCalendar (some (saveCalendar cal)) = some (Except.ok cal) := by
  cases cal with
  | mk l =>
    simp [readCalendar, saveCalendar, Calendar.toJson, Calendar.fromJson,
      List.lookup, decodeSchedules_map_toJson]

theorem showLoop_eq_map (l : List Schedule) : showLoop l = l.map scheduleRow := by
  induction l with
  | nil => rfl
  | cons x xs ih => simp [showLoop, ih]

/--
C9: show_schedule produces the header and then one row per schedule, in
stored order with no filtering or sorting, each row carrying the id, the
formatted start, the formatted end and the subject. The Rust function takes
the calendar by shared reference and only prints, so it is embedded as a
pure function from the calendar to the display lines: it mutates nothing
and writes nothing to the persistence target by construction.
-/
theorem showSchedule_spec (cal : Calendar) :
    showSchedule cal = "ID\tSTART\tEND\tSUBJECT" ::
      cal.schedules.map (fun s =>
        toString s.id ++ "\t" ++ s.start.format ++ "\t" ++
          s.«end».format ++ "\t" ++ s.subject) := by
  unfold showSchedule
  rw [showLoop_eq_map]
  simp [scheduleRow]

end CalendarApp
